import Mathlib

/-!
Shallow embedding of the browser gallery script
`src/web/static/js/gallery.js` of the nas-file-categorizer repository,
together with proofs of the behavioural properties stated in its
specification.

Modelling conventions:
* JS strings are `String`, JS numbers occurring as `size` and `modified`
  are `Int` (they are only compared and subtracted).
* The global mutable `state` object is an explicit `ViewState` record;
  functions that could touch it take it and return it.
* The JS `Set` held in `state.activeFilters` is modelled by its
  insertion-ordered element list; `has` is `List.contains`, `size` is
  `List.length`, and `add` is `jsSetAdd`.
* `String.prototype.split` with a one-character separator is the
  list-level split `jsSplit` (same semantics on every input, including
  leading, trailing and repeated separators and the empty string).
* `Array.prototype.sort cmp` (stable, and every comparator in the script
  is consistent) is `List.mergeSort` with `le a b := cmp a b ≤ 0`.
* `localeCompare` is modelled by code-point lexicographic comparison,
  `localeCompareInt`, a total comparison returning -1, 0 or 1.
* `fetch` and `response.json()` are modelled by a `FetchOutcome`
  argument: the network request either throws (`networkError`) or
  completes with an HTTP status and an optional parsed JSON body
  (`none` when the body is not valid JSON, in which case `json()`
  throws).  `console.error` calls are collected in a `logs` list.
-/

/-- The `file_info` sub-record of an image record. -/
structure FileInfo where
  path : String
  name : String
  size : Int
  modified : Int
deriving DecidableEq, Repr

/-- One element of the JSON array served by the image endpoint. -/
structure ImageRecord where
  file_info : FileInfo
deriving DecidableEq, Repr

/-- The page-level shared mutable state object. -/
structure ViewState where
  allImages : List ImageRecord
  filteredImages : List ImageRecord
  activeFilters : List String
deriving DecidableEq, Repr

/-- JS `s.split(sep)` for a one-character separator, at the level of
character lists: split on every occurrence, keeping empty pieces. -/
def jsSplit (sep : Char) (s : String) : List String :=
  (s.data.splitOn sep).map (fun cs => String.mk cs)

/-- The derived category of an image: `image.file_info.path.split('/')[0]`,
the first path segment.  `split` never returns an empty array, so the
index 0 access always succeeds; `headD` with an arbitrary default is
therefore faithful. -/
def category (image : ImageRecord) : String :=
  (jsSplit '/' image.file_info.path).headD ""

/-- JS `Set.prototype.add` on the insertion-ordered element list. -/
def jsSetAdd (acc : List String) (c : String) : List String :=
  if acc.contains c then acc else acc ++ [c]

/-- The category list built by `loadCategories`: a JS `Set` populated by
a `forEach` over `state.allImages`, read back with `Array.from`, which
yields insertion order. -/
def categoriesOf (s : ViewState) : List String :=
  s.allImages.foldl (fun acc image => jsSetAdd acc (category image)) []

/-- The HTML for one category toggle button rendered by `loadCategories`. -/
def categoryButtonHtml (c : String) : String :=
  "<button class=\"px-4 py-2 rounded-lg bg-gray-200 hover:bg-gray-300 transition-all\" onclick=\"toggleFilter(" ++ c ++ ")\" data-category=\"" ++ c ++ "\">" ++ c ++ "</button>"

/-- The button list `loadCategories` renders into the category-filter
container: one button per element of the derived category set. -/
def categoryButtons (s : ViewState) : List String :=
  (categoriesOf s).map categoryButtonHtml

/-- Truthiness of an optional JS string: `null`/`undefined` and the
empty string are falsy, every other string is truthy. -/
def truthy : Option String → Bool
  | none => false
  | some s => s ≠ ""

/-- Modelled `localeCompare`, as a total code-point lexicographic
comparison returning -1, 0 or 1. -/
def localeCompareInt (x y : String) : Int :=
  if x.data < y.data then -1 else if x = y then 0 else 1

/-- The comparator of the `switch` inside `applyFiltersAndSort`:
`date` compares `b.modified - a.modified`, `name` uses `localeCompare`,
`size` compares `b.size - a.size`, and every other criterion returns 0. -/
def sortCmp (criteria : String) (a b : ImageRecord) : Int :=
  if criteria = "date" then b.file_info.modified - a.file_info.modified
  else if criteria = "name" then localeCompareInt a.file_info.name b.file_info.name
  else if criteria = "size" then b.file_info.size - a.file_info.size
  else 0

/-- The filtering step of `applyFiltersAndSort`: when `activeFilters` is
non-empty keep exactly the images whose derived category it contains,
otherwise keep the whole copied `allImages` array. -/
def filterStep (s : ViewState) : List ImageRecord :=
  if s.activeFilters.length > 0 then
    s.allImages.filter (fun image => s.activeFilters.contains (category image))
  else s.allImages

/-- The sorting step of `applyFiltersAndSort`: when the criterion is
truthy, stable-sort with the comparator, otherwise leave the array
untouched. -/
def sortStep (sortCriteria : Option String) (l : List ImageRecord) : List ImageRecord :=
  if truthy sortCriteria then
    l.mergeSort (fun a b => decide (sortCmp (sortCriteria.getD "") a b ≤ 0))
  else l

/-- The function `applyFiltersAndSort(sortCriteria)`: recompute the
filtered and sorted view from `state.allImages` and
`state.activeFilters` and store it into `state.filteredImages` (the
trailing `displayImages` call renders it and does not touch state). -/
def applyFiltersAndSort (sortCriteria : Option String) (s : ViewState) : ViewState :=
  { s with filteredImages := sortStep sortCriteria (filterStep s) }

/-- The URL built by `loadImages`: the `category` query parameter is
appended exactly when the argument is truthy. -/
def loadImagesUrl (cat : Option String) : String :=
  if truthy cat then "/api/images?category=" ++ cat.getD "" else "/api/images"

/-- What the modelled `fetch` of `loadImages` does: either the request
itself throws, or it completes with a status and a body that may or may
not parse as JSON. -/
structure FetchResponse where
  status : Nat
  body : Option (List ImageRecord)
deriving DecidableEq, Repr

inductive FetchOutcome where
  | networkError : FetchOutcome
  | completed : FetchResponse → FetchOutcome
deriving DecidableEq, Repr

/-- The value a call to `loadImages` produces: the URL it requested, the
returned images (`none` models the `undefined` produced when the `catch`
branch runs), and the `console.error` log lines. -/
structure LoadResult where
  requestUrl : String
  images : Option (List ImageRecord)
  logs : List String
deriving DecidableEq, Repr

/-- The function `loadImages(category = null)`: build the URL, fetch,
parse the body as JSON and return it.  Any exception from `fetch` or
from `json()` is caught and logged, and the function then returns
`undefined`.  The HTTP status is never inspected.  The shared state is
passed through untouched: the body contains no assignment to `state`. -/
def loadImages (cat : Option String) (fetch : FetchOutcome) (s : ViewState) :
    LoadResult × ViewState :=
  match fetch with
  | .networkError =>
      ({ requestUrl := loadImagesUrl cat, images := none,
         logs := ["Error loading images:"] }, s)
  | .completed r =>
      match r.body with
      | none =>
          ({ requestUrl := loadImagesUrl cat, images := none,
             logs := ["Error loading images:"] }, s)
      | some images =>
          ({ requestUrl := loadImagesUrl cat, images := some images,
             logs := [] }, s)

/-- First-seen deduplication, the order specification for the rendered
category buttons: keep each string at its first occurrence and drop the
later duplicates. -/
def firstSeen : List String → List String
  | [] => []
  | c :: rest => c :: (firstSeen rest).filter (fun d => d != c)

/-! ### Fixtures from the specification scenarios -/

/-- Scenario image `{path:"cats/a.jpg",name:"a",size:10,modified:100}`. -/
def imgA : ImageRecord := ⟨⟨"cats/a.jpg", "a", 10, 100⟩⟩

/-- Scenario image `{path:"dogs/b.jpg",name:"b",size:20,modified:200}`. -/
def imgB : ImageRecord := ⟨⟨"dogs/b.jpg", "b", 20, 200⟩⟩

/-- An image whose path holds no separator at all. -/
def imgSolo : ImageRecord := ⟨⟨"solo.jpg", "s", 1, 5⟩⟩

/-- Scenario state with both images loaded and no active filter. -/
def stNoFilter : ViewState := ⟨[imgA, imgB], [], []⟩

/-- Scenario state with both images loaded and the cats filter active. -/
def stCats : ViewState := ⟨[imgA, imgB], [], ["cats"]⟩

/-! ### Basic lemmas about the embedded operations -/

/-- Splitting a string that holds no separator yields the whole string. -/
theorem jsSplit_of_no_sep (sep : Char) (s : String) (h : ∀ ch ∈ s.data, ch ≠ sep) :
    jsSplit sep s = [s] := by
  unfold jsSplit
  rw [List.splitOn, List.splitOnP_eq_single]
  · cases s
    simp
  · intro x hx
    simp [h x hx]

/-- The modelled `localeCompare` is nonpositive exactly on ordered pairs. -/
theorem localeCompareInt_nonpos (x y : String) : localeCompareInt x y ≤ 0 ↔ x ≤ y := by
  unfold localeCompareInt
  split_ifs with h1 h2
  · simp [le_of_lt (String.lt_iff_toList_lt.mpr h1)]
  · simp [le_of_eq h2]
  · constructor
    · intro h
      omega
    · intro hxy
      rcases lt_or_eq_of_le hxy with hlt | heq
      · exact absurd (String.lt_iff_toList_lt.mp hlt) h1
      · exact absurd heq h2

theorem sortCmp_date (a b : ImageRecord) :
    sortCmp "date" a b = b.file_info.modified - a.file_info.modified := by
  simp [sortCmp]

theorem sortCmp_name (a b : ImageRecord) :
    sortCmp "name" a b = localeCompareInt a.file_info.name b.file_info.name := by
  unfold sortCmp
  rw [if_neg (by decide), if_pos rfl]

theorem sortCmp_size (a b : ImageRecord) :
    sortCmp "size" a b = b.file_info.size - a.file_info.size := by
  unfold sortCmp
  rw [if_neg (by decide), if_neg (by decide), if_pos rfl]

/-- Every criterion other than the three recognised ones compares as 0. -/
theorem sortCmp_other (k : String) (h1 : k ≠ "date") (h2 : k ≠ "name")
    (h3 : k ≠ "size") (a b : ImageRecord) : sortCmp k a b = 0 := by
  simp [sortCmp, h1, h2, h3]

/-- Sorting never adds or removes elements. -/
theorem mem_sortStep (c : Option String) (l : List ImageRecord) (x : ImageRecord) :
    x ∈ sortStep c l ↔ x ∈ l := by
  unfold sortStep
  split
  · exact List.mem_mergeSort
  · exact Iff.rfl

/-- Sorting preserves length. -/
theorem length_sortStep (c : Option String) (l : List ImageRecord) :
    (sortStep c l).length = l.length := by
  unfold sortStep
  split
  · exact List.length_mergeSort l
  · rfl

/-- Images surviving the filter step belong to `allImages`. -/
theorem filterStep_subset (s : ViewState) : filterStep s ⊆ s.allImages := by
  unfold filterStep
  split
  · exact fun _ hx => List.mem_of_mem_filter hx
  · exact fun _ hx => hx

/-! ### The insertion-ordered category set -/

/-- Membership in the first-seen deduplication is plain membership. -/
theorem mem_firstSeen (d : String) : ∀ l : List String, d ∈ firstSeen l ↔ d ∈ l
  | [] => Iff.rfl
  | c :: rest => by
    by_cases hd : d = c
    · subst hd
      simp [firstSeen]
    · simp [firstSeen, List.mem_filter, mem_firstSeen d rest, hd]

/-- The first-seen deduplication holds no duplicates. -/
theorem nodup_firstSeen : ∀ l : List String, (firstSeen l).Nodup
  | [] => List.nodup_nil
  | c :: rest => by
    rw [firstSeen]
    refine List.Nodup.cons ?_ ((nodup_firstSeen rest).filter _)
    intro hc
    rcases List.mem_filter.mp hc with ⟨-, hne⟩
    simp at hne

/-- Folding the JS `Set.add` over a list extends the accumulator with the
not-yet-present elements, in first-seen order. -/
theorem foldl_jsSetAdd : ∀ (l acc : List String),
    l.foldl jsSetAdd acc = acc ++ (firstSeen l).filter (fun c => !acc.contains c)
  | [], acc => by simp [firstSeen]
  | c :: rest, acc => by
    rw [List.foldl_cons, foldl_jsSetAdd rest, firstSeen, List.filter_cons]
    unfold jsSetAdd
    by_cases h : c ∈ acc
    · rw [if_pos (by simp [h] : acc.contains c = true),
        if_neg (by simp [h] : ¬(!acc.contains c) = true), List.filter_filter]
      congr 1
      refine List.filter_congr fun x _ => ?_
      by_cases hxa : x ∈ acc
      · simp [hxa]
      · have hxc : x ≠ c := fun he => hxa (he ▸ h)
        simp [hxa, hxc]
    · rw [if_neg (by simp [h] : ¬acc.contains c = true),
        if_pos (by simp [h] : (!acc.contains c) = true), List.filter_filter,
        List.append_assoc, List.singleton_append]
      congr 2
      refine List.filter_congr fun x _ => ?_
      by_cases hxc : x = c
      · subst hxc
        simp
      · by_cases hxa : x ∈ acc <;> simp [hxa, hxc]

/-- The category list built by `loadCategories` is exactly the first-seen
deduplication of the derived categories of `allImages`. -/
theorem categoriesOf_eq (s : ViewState) :
    categoriesOf s = firstSeen (s.allImages.map category) := by
  unfold categoriesOf
  rw [← List.foldl_map category jsSetAdd, foldl_jsSetAdd]
  simp

/-! ### Sortedness of the three comparators -/

theorem sortStep_date_pairwise (l : List ImageRecord) :
    (sortStep (some "date") l).Pairwise
      (fun a b => b.file_info.modified ≤ a.file_info.modified) := by
  rw [sortStep, if_pos (by decide : truthy (some "date") = true)]
  refine (List.sorted_mergeSort ?_ ?_ l).imp ?_
  · intro a b c hab hbc
    simp only [Option.getD_some, decide_eq_true_eq, sortCmp_date] at *
    omega
  · intro a b
    simp only [Option.getD_some, Bool.or_eq_true, decide_eq_true_eq, sortCmp_date]
    omega
  · intro a b h
    simp only [Option.getD_some, decide_eq_true_eq, sortCmp_date] at h
    omega

theorem sortStep_size_pairwise (l : List ImageRecord) :
    (sortStep (some "size") l).Pairwise
      (fun a b => b.file_info.size ≤ a.file_info.size) := by
  rw [sortStep, if_pos (by decide : truthy (some "size") = true)]
  refine (List.sorted_mergeSort ?_ ?_ l).imp ?_
  · intro a b c hab hbc
    simp only [Option.getD_some, decide_eq_true_eq, sortCmp_size] at *
    omega
  · intro a b
    simp only [Option.getD_some, Bool.or_eq_true, decide_eq_true_eq, sortCmp_size]
    omega
  · intro a b h
    simp only [Option.getD_some, decide_eq_true_eq, sortCmp_size] at h
    omega

theorem sortStep_name_pairwise (l : List ImageRecord) :
    (sortStep (some "name") l).Pairwise
      (fun a b => a.file_info.name ≤ b.file_info.name) := by
  rw [sortStep, if_pos (by decide : truthy (some "name") = true)]
  refine (List.sorted_mergeSort ?_ ?_ l).imp ?_
  · intro a b c hab hbc
    simp only [Option.getD_some, decide_eq_true_eq, sortCmp_name, localeCompareInt_nonpos] at *
    exact le_trans hab hbc
  · intro a b
    simp only [Option.getD_some, Bool.or_eq_true, decide_eq_true_eq, sortCmp_name, localeCompareInt_nonpos]
    exact le_total _ _
  · intro a b h
    simp only [Option.getD_some, decide_eq_true_eq, sortCmp_name, localeCompareInt_nonpos] at h
    exact h

/-- Extra fixture: a state whose only image has a separator-free path. -/
def stSolo : ViewState := ⟨[imgSolo], [], ["solo.jpg"]⟩

/-! ### Claims -/

/-- C1: for every image set and every non-empty `activeFilters`,
`applyFiltersAndSort` produces a `filteredImages` sequence in which every
image has its derived category in `activeFilters`; for empty
`activeFilters` the produced sequence has the same length as
`allImages`. -/
theorem applyFiltersAndSort_filter_correct (c : Option String) (s : ViewState) :
    (s.activeFilters ≠ [] →
      ∀ img ∈ (applyFiltersAndSort c s).filteredImages,
        category img ∈ s.activeFilters) ∧
    (s.activeFilters = [] →
      (applyFiltersAndSort c s).filteredImages.length = s.allImages.length) := by
  constructor
  · intro hne img hmem
    have hmem2 : img ∈ filterStep s := (mem_sortStep c _ img).mp hmem
    rw [filterStep, if_pos (List.length_pos.mpr hne)] at hmem2
    rcases List.mem_filter.mp hmem2 with ⟨-, hp⟩
    simpa using hp
  · intro hem
    show (sortStep c (filterStep s)).length = _
    rw [length_sortStep, filterStep, hem]
    simp

/-- Witness for C1 at the scenario state with the cats filter active. -/
theorem applyFiltersAndSort_filter_correct_witness :
    stCats.activeFilters ≠ [] ∧
    ∀ img ∈ (applyFiltersAndSort (some "date") stCats).filteredImages,
      category img ∈ stCats.activeFilters :=
  ⟨by decide, (applyFiltersAndSort_filter_correct (some "date") stCats).1 (by decide)⟩

/-- C2: sorting with criterion `date` yields non-increasing `modified`
values, with `size` non-increasing `size` values, and with `name`
non-decreasing names in the (modelled) locale-aware lexicographic
order. -/
theorem applyFiltersAndSort_sort_sorted (s : ViewState) :
    ((applyFiltersAndSort (some "date") s).filteredImages.Pairwise
      (fun a b => b.file_info.modified ≤ a.file_info.modified)) ∧
    ((applyFiltersAndSort (some "size") s).filteredImages.Pairwise
      (fun a b => b.file_info.size ≤ a.file_info.size)) ∧
    ((applyFiltersAndSort (some "name") s).filteredImages.Pairwise
      (fun a b => a.file_info.name ≤ b.file_info.name)) :=
  ⟨sortStep_date_pairwise _, sortStep_size_pairwise _, sortStep_name_pairwise _⟩

/-- C3 counterexample: a fetch that completes with HTTP status 500 and a
body that parses as JSON is not treated as an opaque failure: the parsed
body is returned as a usable result, contradicting the claim for non-2xx
statuses. -/
theorem loadImages_http500_parsed_body_returned :
    (loadImages none (FetchOutcome.completed ⟨500, some [imgA]⟩) stCats).1.images
        = some [imgA] ∧
    (loadImages none (FetchOutcome.completed ⟨500, some [imgA]⟩) stCats).1.images
        ≠ none ∧
    ¬(200 ≤ 500 ∧ 500 < 300) := by decide

/-- C3 (amended): whenever the fetch throws or the body fails to parse as
JSON, `loadImages` logs the error, yields no usable result (`undefined`),
and the page state is unchanged; the HTTP status itself is never
inspected. -/
theorem loadImages_opaque_failure (cat : Option String) (f : FetchOutcome)
    (s : ViewState)
    (h : f = FetchOutcome.networkError ∨
      ∃ r, f = FetchOutcome.completed r ∧ r.body = none) :
    (loadImages cat f s).1.images = none ∧
    (loadImages cat f s).1.logs = ["Error loading images:"] ∧
    (loadImages cat f s).2 = s := by
  rcases h with h | ⟨r, h, hb⟩
  · subst h
    exact ⟨rfl, rfl, rfl⟩
  · subst h
    rcases r with ⟨st, b⟩
    change b = none at hb
    subst hb
    exact ⟨rfl, rfl, rfl⟩

/-- Witness for the amended C3 at a throwing fetch. -/
theorem loadImages_opaque_failure_witness :
    ((FetchOutcome.networkError = FetchOutcome.networkError ∨
        ∃ r, FetchOutcome.networkError = FetchOutcome.completed r ∧
          r.body = none) ∧
      ((loadImages (some "cats") FetchOutcome.networkError stCats).1.images = none ∧
       (loadImages (some "cats") FetchOutcome.networkError stCats).1.logs
          = ["Error loading images:"] ∧
       (loadImages (some "cats") FetchOutcome.networkError stCats).2 = stCats)) :=
  ⟨Or.inl rfl,
    loadImages_opaque_failure (some "cats") FetchOutcome.networkError stCats
      (Or.inl rfl)⟩

/-- C4: `loadCategories` derives exactly the set of distinct first path
segments of `allImages`, without duplicates, in first-seen order, and
renders one button per derived category. -/
theorem loadCategories_categories_firstSeen (s : ViewState) :
    categoriesOf s = firstSeen (s.allImages.map category) ∧
    (categoriesOf s).Nodup ∧
    (∀ c, c ∈ categoriesOf s ↔ ∃ img ∈ s.allImages, category img = c) ∧
    categoryButtons s = (categoriesOf s).map categoryButtonHtml := by
  refine ⟨categoriesOf_eq s, ?_, ?_, rfl⟩
  · rw [categoriesOf_eq]
    exact nodup_firstSeen _
  · intro c
    rw [categoriesOf_eq, mem_firstSeen]
    simp [List.mem_map]

/-- C5: after every call, `filteredImages` is a subset of `allImages`,
the other state fields are untouched, and the result is fully recomputed
from `allImages` and `activeFilters`: it does not depend on the previous
`filteredImages` value. -/
theorem applyFiltersAndSort_state_invariant (c : Option String) (s : ViewState) :
    (applyFiltersAndSort c s).filteredImages ⊆ s.allImages ∧
    (applyFiltersAndSort c s).allImages = s.allImages ∧
    (applyFiltersAndSort c s).activeFilters = s.activeFilters ∧
    (∀ fi : List ImageRecord,
      (applyFiltersAndSort c { s with filteredImages := fi }).filteredImages =
        (applyFiltersAndSort c s).filteredImages) := by
  refine ⟨?_, rfl, rfl, fun fi => rfl⟩
  intro img hmem
  exact filterStep_subset s ((mem_sortStep c _ img).mp hmem)

/-- Witness for C5 at the cats-filter scenario state. -/
theorem applyFiltersAndSort_state_invariant_witness :
    (applyFiltersAndSort (some "size") stCats).filteredImages ⊆ stCats.allImages ∧
    (applyFiltersAndSort (some "size") stCats).allImages = stCats.allImages ∧
    (applyFiltersAndSort (some "size") stCats).activeFilters = stCats.activeFilters ∧
    (∀ fi : List ImageRecord,
      (applyFiltersAndSort (some "size")
          { stCats with filteredImages := fi }).filteredImages =
        (applyFiltersAndSort (some "size") stCats).filteredImages) :=
  applyFiltersAndSort_state_invariant (some "size") stCats

/-- C6: applying the same filter and sort twice in a row yields the same
`filteredImages` sequence both times. -/
theorem applyFiltersAndSort_idempotent (c : Option String) (s : ViewState) :
    (applyFiltersAndSort c (applyFiltersAndSort c s)).filteredImages =
      (applyFiltersAndSort c s).filteredImages := rfl

/-- C7: for every criterion other than `date`, `name` or `size`,
including an absent or falsy one, `applyFiltersAndSort` performs no
reordering: the output equals the filtered input order. -/
theorem applyFiltersAndSort_no_reorder (c : Option String) (s : ViewState)
    (h1 : c ≠ some "date") (h2 : c ≠ some "name") (h3 : c ≠ some "size") :
    (applyFiltersAndSort c s).filteredImages = filterStep s := by
  show sortStep c (filterStep s) = filterStep s
  rcases c with _ | k
  · rfl
  · by_cases hk : k = ""
    · subst hk
      rfl
    · rw [sortStep, if_pos (by simp [truthy, hk])]
      apply List.mergeSort_of_sorted
      apply List.pairwise_of_forall
      intro a b
      have e : sortCmp k a b = 0 := by
        refine sortCmp_other k ?_ ?_ ?_ a b
        · intro he
          exact h1 (by rw [he])
        · intro he
          exact h2 (by rw [he])
        · intro he
          exact h3 (by rw [he])
      simp [e]

/-- Witness for C7 at the unrecognised criterion `modified`. -/
theorem applyFiltersAndSort_no_reorder_witness :
    ((some "modified" : Option String) ≠ some "date" ∧
     (some "modified" : Option String) ≠ some "name" ∧
     (some "modified" : Option String) ≠ some "size") ∧
    (applyFiltersAndSort (some "modified") stNoFilter).filteredImages =
      filterStep stNoFilter :=
  ⟨by decide,
    applyFiltersAndSort_no_reorder (some "modified") stNoFilter
      (by decide) (by decide) (by decide)⟩

/-- C8 counterexample: the empty string is a provided category argument,
yet the built URL is the bare endpoint, not the query form. -/
theorem loadImages_url_empty_string_category :
    (loadImages (some "") FetchOutcome.networkError stCats).1.requestUrl
        = "/api/images" ∧
    (loadImages (some "") FetchOutcome.networkError stCats).1.requestUrl
        ≠ "/api/images?category=" := by decide

/-- C8 (amended): the request URL is the query form exactly when the
category argument is truthy (present and non-empty); when the argument
is absent, null, or the empty string, it is the bare endpoint. -/
theorem loadImages_url_truthy (cat : Option String) (f : FetchOutcome)
    (s : ViewState) :
    (truthy cat = true →
      (loadImages cat f s).1.requestUrl = "/api/images?category=" ++ cat.getD "") ∧
    (truthy cat = false →
      (loadImages cat f s).1.requestUrl = "/api/images") := by
  have hu : (loadImages cat f s).1.requestUrl = loadImagesUrl cat := by
    rcases f with _ | ⟨st, b⟩
    · rfl
    · cases b <;> rfl
  constructor
  · intro ht
    rw [hu, loadImagesUrl, if_pos ht]
  · intro hf
    rw [hu, loadImagesUrl, if_neg (by simp [hf])]

/-- Witness for the amended C8 at the category `cats`. -/
theorem loadImages_url_truthy_witness :
    truthy (some "cats") = true ∧
    (loadImages (some "cats") FetchOutcome.networkError stCats).1.requestUrl =
      "/api/images?category=" ++ (some "cats").getD "" :=
  ⟨by decide,
    (loadImages_url_truthy (some "cats") FetchOutcome.networkError stCats).1
      (by decide)⟩

/-- C9: `loadImages` never mutates the shared state: after every call,
whatever the fetch outcome, the whole state and each of its fields are
unchanged; the parsed result is only returned to the caller. -/
theorem loadImages_preserves_state (cat : Option String) (f : FetchOutcome)
    (s : ViewState) :
    (loadImages cat f s).2 = s ∧
    (loadImages cat f s).2.allImages = s.allImages ∧
    (loadImages cat f s).2.filteredImages = s.filteredImages ∧
    (loadImages cat f s).2.activeFilters = s.activeFilters := by
  have h : (loadImages cat f s).2 = s := by
    rcases f with _ | ⟨st, b⟩
    · rfl
    · cases b <;> rfl
  exact ⟨h, by rw [h], by rw [h], by rw [h]⟩

/-- C10: an image whose path holds no separator is categorised under its
whole path, appears under that name in the derived category list, and is
kept by the filter step exactly when the whole path is an active
filter. -/
theorem category_of_separator_free_path (img : ImageRecord) (s : ViewState)
    (h : ∀ ch ∈ img.file_info.path.data, ch ≠ '/')
    (hmem : img ∈ s.allImages) (hne : s.activeFilters ≠ []) :
    category img = img.file_info.path ∧
    img.file_info.path ∈ categoriesOf s ∧
    (img ∈ filterStep s ↔ img.file_info.path ∈ s.activeFilters) := by
  have hcat : category img = img.file_info.path := by
    unfold category
    rw [jsSplit_of_no_sep _ _ h]
    rfl
  refine ⟨hcat, ?_, ?_⟩
  · rw [categoriesOf_eq, mem_firstSeen]
    exact List.mem_map.mpr ⟨img, hmem, hcat⟩
  · rw [filterStep, if_pos (List.length_pos.mpr hne)]
    simp [List.mem_filter, hmem, hcat]

/-- Witness for C10 at the separator-free fixture. -/
theorem category_of_separator_free_path_witness :
    ((∀ ch ∈ imgSolo.file_info.path.data, ch ≠ '/') ∧
      imgSolo ∈ stSolo.allImages ∧ stSolo.activeFilters ≠ []) ∧
    (category imgSolo = imgSolo.file_info.path ∧
      imgSolo.file_info.path ∈ categoriesOf stSolo ∧
      (imgSolo ∈ filterStep stSolo ↔
        imgSolo.file_info.path ∈ stSolo.activeFilters)) :=
  ⟨⟨by decide, by decide, by decide⟩,
    category_of_separator_free_path imgSolo stSolo
      (by decide) (by decide) (by decide)⟩

/-- Scenario from the specification: with the cats filter active, the
filter step keeps exactly the cats image. -/
theorem filterStep_scenario_cats : filterStep stCats = [imgA] := by decide

/-- Scenario from the specification: the derived category list of the
two scenario images, in first-seen order. -/
theorem categoriesOf_scenario : categoriesOf stNoFilter = ["cats", "dogs"] := by decide
